import Mathlib

/-!
# Verification of CrackTime Analyzer core logic

Shallow embedding of `cracktime_analyzer/core.py` and
`cracktime_analyzer/report.py`. Python strings are modelled as `List Char`,
Python floats as real numbers (`ℝ`) where transcendental functions appear
and as rationals (`ℚ`) for the purely arithmetic crack-time estimate.
The external `zxcvbn` estimator is modelled by an explicit outcome value
(`ZxcvbnOutcome`): unavailable, a returned record, or a raised exception.
-/

namespace CrackTime

/-- Python `string.printable` membership: ASCII 0x20..0x7e plus the five
whitespace control characters 0x09..0x0d (tab, LF, VT, FF, CR). -/
def pythonPrintable (c : Char) : Bool :=
  (32 ≤ c.toNat && c.toNat ≤ 126) || (9 ≤ c.toNat && c.toNat ≤ 13)

/-- The `symbols` set of `analyze_password`:
`set(string.printable) - set(string.ascii_letters) - set(string.digits)`. -/
def isSymbolChar (c : Char) : Bool :=
  pythonPrintable c && !(c.isAlpha || c.isDigit)

/-- Embedding of `_shannon_entropy_bits` from core.py: per-character Shannon entropy
(over the distinct characters of the password, each weighted by its
frequency) multiplied by the length; `0.0` for the empty string. -/
noncomputable def _shannon_entropy_bits (pw : List Char) : ℝ :=
  if pw = [] then 0
  else
    let length : ℕ := pw.length
    let entropy_per_char : ℝ :=
      (pw.dedup.map (fun c =>
        let p : ℝ := (pw.count c : ℝ) / (length : ℝ);
        -(p * Real.logb 2 p))).sum
    entropy_per_char * (length : ℝ)

/-- Python `round(x, 3)` (ties immaterial for the claims considered). -/
noncomputable def round3 (x : ℝ) : ℝ :=
  ((round (x * 1000) : ℤ) : ℝ) / 1000

/-- Python `int()` conversion of a float: truncation toward zero. -/
noncomputable def pyInt (x : ℝ) : ℤ :=
  if 0 ≤ x then ⌊x⌋ else ⌈x⌉

/-- Embedding of `_heuristic_score` from core.py: threshold ladder on entropy bits,
with a special case for the empty password. -/
noncomputable def _heuristic_score (entropy_bits : ℝ) (length : ℕ) : ℤ :=
  if length = 0 then 0
  else if entropy_bits < 28 then 0
  else if entropy_bits < 36 then 1
  else if entropy_bits < 60 then 2
  else if entropy_bits < 80 then 3
  else 4

/-- Embedding of `_mask_password` from core.py: fully mask short passwords, keep the
first and last character otherwise. -/
def _mask_password (pw : List Char) : List Char :=
  if pw = [] then []
  else if pw.length ≤ 2 then List.replicate pw.length '*'
  else pw.headI :: (List.replicate (pw.length - 2) '*' ++ [pw.getLastI])

/-- Outcome of consulting the external `zxcvbn` estimator on a password:
the import failed (`unavailable`), the call returned a record whose fields
may individually be missing (`ok`, mirroring `zres.get(..., default)`), or
the call raised (`failed msg`). -/
inductive ZxcvbnOutcome where
  | unavailable : ZxcvbnOutcome
  | ok (entropy : Option ℝ) (guesses : Option ℝ) (score : Option ℤ) : ZxcvbnOutcome
  | failed (msg : String) : ZxcvbnOutcome

/-- The result dict built by `analyze_password`. -/
structure AnalysisResult where
  password_masked : List Char
  length : ℕ
  has_upper : Bool
  has_lower : Bool
  has_digit : Bool
  has_symbol : Bool
  charset_size_est : ℕ
  entropy_bits : ℝ
  guesses : Option ℤ
  score : Option ℤ
  notes : List String

/-- Embedding of `analyze_password` from core.py, parametrised by the outcome of the
external estimator. All three paths produce a full result; the failure
path recovers into the Shannon-entropy fallback and records a note. -/
noncomputable def analyze_password (z : ZxcvbnOutcome) (pw : List Char) : AnalysisResult :=
  let length := pw.length
  let has_upper := pw.any (fun c => c.isUpper)
  let has_lower := pw.any (fun c => c.isLower)
  let has_digit := pw.any (fun c => c.isDigit)
  let has_symbol := pw.any isSymbolChar
  let charset_size : ℕ :=
    (if has_lower then 26 else 0) + (if has_upper then 26 else 0) +
      (if has_digit then 10 else 0) + (if has_symbol then 32 else 0)
  match z with
  | ZxcvbnOutcome.ok zentropy zguesses zscore =>
      let entropy_bits := zentropy.getD (_shannon_entropy_bits pw)
      let guesses := zguesses.getD (max 1 ((2 : ℝ) ^ entropy_bits))
      let score := zscore.getD 0
      { password_masked := _mask_password pw
        length := length
        has_upper := has_upper
        has_lower := has_lower
        has_digit := has_digit
        has_symbol := has_symbol
        charset_size_est := charset_size
        entropy_bits := round3 entropy_bits
        guesses := some (pyInt guesses)
        score := some score
        notes := [] }
  | ZxcvbnOutcome.failed msg =>
      let entropy_bits := _shannon_entropy_bits pw
      let guesses := max 1 ((2 : ℝ) ^ entropy_bits)
      let score := _heuristic_score entropy_bits length
      { password_masked := _mask_password pw
        length := length
        has_upper := has_upper
        has_lower := has_lower
        has_digit := has_digit
        has_symbol := has_symbol
        charset_size_est := charset_size
        entropy_bits := round3 entropy_bits
        guesses := some (pyInt guesses)
        score := some score
        notes := ["zxcvbn error: " ++ msg ++ "; falling back to Shannon entropy"] }
  | ZxcvbnOutcome.unavailable =>
      let entropy_bits := _shannon_entropy_bits pw
      let guesses := max 1 ((2 : ℝ) ^ entropy_bits)
      let score := _heuristic_score entropy_bits length
      { password_masked := _mask_password pw
        length := length
        has_upper := has_upper
        has_lower := has_lower
        has_digit := has_digit
        has_symbol := has_symbol
        charset_size_est := charset_size
        entropy_bits := round3 entropy_bits
        guesses := some (pyInt guesses)
        score := some score
        notes := ["zxcvbn not available; used Shannon entropy & heuristic score"] }

/-- The value/precision/unit triple underlying one of the formatted
return strings of `_human_readable_seconds` (the digit rendering of the
Python f-string is not modelled; the scaled value, the number of decimal
places and the unit word are). -/
structure TimeDisplay where
  value : ℚ
  decimals : ℕ
  unit : String
deriving DecidableEq

/-- Embedding of `_human_readable_seconds` from core.py. -/
def _human_readable_seconds (seconds : ℚ) : TimeDisplay :=
  if seconds < 1 then { value := seconds, decimals := 3, unit := "seconds" }
  else
    let minute : ℚ := 60
    let hour : ℚ := 60 * minute
    let day : ℚ := 24 * hour
    let year : ℚ := (365.25 : ℚ) * day
    if seconds < minute then { value := seconds, decimals := 2, unit := "seconds" }
    else if seconds < hour then { value := seconds / 60, decimals := 2, unit := "minutes" }
    else if seconds < day then { value := seconds / hour, decimals := 2, unit := "hours" }
    else if seconds < year then { value := seconds / day, decimals := 2, unit := "days" }
    else { value := seconds / year, decimals := 2, unit := "years" }

/-- The dict returned by `estimate_crack_time_from_guesses`. -/
structure CrackTimeEstimate where
  seconds : ℚ
  human_readable : TimeDisplay
  guesses_per_second : ℚ
deriving DecidableEq

/-- Embedding of `estimate_crack_time_from_guesses` from core.py: rejects a
non-positive rate before dividing, otherwise divides. -/
def estimate_crack_time_from_guesses (guesses guesses_per_second : ℚ) :
    Except String CrackTimeEstimate :=
  if guesses_per_second ≤ 0 then
    Except.error "guesses_per_second must be > 0"
  else
    let seconds := guesses / guesses_per_second
    Except.ok
      { seconds := seconds
        human_readable := _human_readable_seconds seconds
        guesses_per_second := guesses_per_second }

/-- The fixed CSV header row written by `save_csv_report`. -/
def csvHeader : List String :=
  ["password_id", "password_masked", "length", "entropy_bits", "guesses", "score", "notes"]

/-- Rendering of an optional integer cell (Python prints the int, or an
empty cell for `None`). -/
def showOptInt : Option ℤ → String
  | none => ""
  | some n => toString n

/-- One CSV data row of `save_csv_report` for result number `i`
(`showReal` abstracts Python float rendering). -/
def csvRow (showReal : ℝ → String) (i : ℕ) (r : AnalysisResult) : List String :=
  ["p" ++ toString i, String.mk r.password_masked, toString r.length,
    showReal r.entropy_bits, showOptInt r.guesses, showOptInt r.score,
    if r.notes = [] then "" else String.intercalate " | " r.notes]

/-- Embedding of `save_csv_report` from report.py, as its list of written rows: the
header only when there are no results, otherwise the header followed by
one row per result, numbered from 1. -/
def save_csv_report (showReal : ℝ → String) (results : List AnalysisResult) :
    List (List String) :=
  if results.isEmpty then [csvHeader]
  else csvHeader :: results.mapIdx (fun i r => csvRow showReal (i + 1) r)

/-- C10: masking preserves length: for every input string the masked
representation has exactly as many characters as the original, in the
fully-masked case as well as the first-and-last-kept case. -/
theorem mask_password_length (pw : List Char) :
    (_mask_password pw).length = pw.length := by
  unfold _mask_password
  split_ifs with h1 h2
  · simp [h1]
  · simp
  · simp only [List.length_cons, List.length_append, List.length_replicate,
      List.length_nil]
    omega

/-- C7: for passwords of length greater than 2 the mask keeps the first
and last character and stars the interior; for length at most 2 it is all
stars; `mask "ab" = "**"`, `mask "abcd" = "a**d"`, and analyzing the empty
string yields length 0, entropy 0 and an empty mask. -/
theorem mask_password_spec :
    (∀ pw : List Char, 2 < pw.length →
        _mask_password pw =
          pw.headI :: (List.replicate (pw.length - 2) '*' ++ [pw.getLastI])) ∧
    (∀ pw : List Char, pw.length ≤ 2 →
        _mask_password pw = List.replicate pw.length '*') ∧
    _mask_password ['a', 'b'] = ['*', '*'] ∧
    _mask_password ['a', 'b', 'c', 'd'] = ['a', '*', '*', 'd'] ∧
    (analyze_password ZxcvbnOutcome.unavailable []).length = 0 ∧
    (analyze_password ZxcvbnOutcome.unavailable []).entropy_bits = 0 ∧
    (analyze_password ZxcvbnOutcome.unavailable []).password_masked = [] := by
  refine ⟨?_, ?_, by decide, by decide, rfl, ?_, rfl⟩
  · intro pw h
    unfold _mask_password
    split_ifs with h1 h2
    · subst h1; simp at h
    · exact absurd h (by omega)
    · rfl
  · intro pw h
    unfold _mask_password
    split_ifs with h1
    · simp [h1]
    · rfl
  · show round3 (_shannon_entropy_bits []) = 0
    norm_num [round3, _shannon_entropy_bits]

/-- C7 witness: the theorem applied at the concrete passwords "xyz"
(length 3 keeps ends) and "q" (length 1 fully masked). -/
theorem mask_password_spec_witness :
    _mask_password ['x', 'y', 'z'] =
      ['x', 'y', 'z'].headI ::
        (List.replicate (['x', 'y', 'z'].length - 2) '*' ++ [['x', 'y', 'z'].getLastI]) ∧
    _mask_password ['q'] = List.replicate (['q'].length) '*' :=
  ⟨mask_password_spec.1 ['x', 'y', 'z'] (by norm_num),
   mask_password_spec.2.1 ['q'] (by norm_num)⟩

/-- C2: the crack-time estimator fails with the invalid-argument message
exactly when the rate is non-positive, and for a positive rate returns
seconds = guesses / rate with the rate echoed back. -/
theorem estimate_crack_time_spec (g r : ℚ) :
    (estimate_crack_time_from_guesses g r =
        Except.error "guesses_per_second must be > 0" ↔ r ≤ 0) ∧
    (0 < r →
      estimate_crack_time_from_guesses g r =
        Except.ok
          { seconds := g / r
            human_readable := _human_readable_seconds (g / r)
            guesses_per_second := r }) := by
  unfold estimate_crack_time_from_guesses
  split_ifs with h
  · exact ⟨⟨fun _ => h, fun _ => rfl⟩, fun hr => absurd h (not_le.mpr hr)⟩
  · refine ⟨⟨fun he => ?_, fun hr => absurd hr h⟩, fun _ => rfl⟩
    simp at he

/-- C2 witness: one million guesses at one thousand guesses per second is
accepted (rate positive) and yields exactly 1000 seconds. -/
theorem estimate_crack_time_spec_witness :
    estimate_crack_time_from_guesses 1000000 1000 =
      Except.ok
        { seconds := 1000
          human_readable := _human_readable_seconds 1000
          guesses_per_second := 1000 } := by
  have h := (estimate_crack_time_spec 1000000 1000).2 (by norm_num)
  have hq : (1000000 : ℚ) / 1000 = 1000 := by norm_num
  rw [hq] at h
  exact h

/-- Unfolding of `_human_readable_seconds` with the unit constants
(`60 * 60`, `24 * 3600`, `365.25 * 86400`) evaluated to numerals. -/
theorem human_readable_seconds_eq (s : ℚ) :
    _human_readable_seconds s =
      if s < 1 then { value := s, decimals := 3, unit := "seconds" }
      else if s < 60 then { value := s, decimals := 2, unit := "seconds" }
      else if s < 3600 then { value := s / 60, decimals := 2, unit := "minutes" }
      else if s < 86400 then { value := s / 3600, decimals := 2, unit := "hours" }
      else if s < 31557600 then { value := s / 86400, decimals := 2, unit := "days" }
      else { value := s / 31557600, decimals := 2, unit := "years" } := by
  simp only [_human_readable_seconds]
  norm_num

/-- C6: the human-readable duration is selected by ascending fixed
boundaries on seconds: below 1 second the raw value to 3 decimals, below
60 the value to 2 decimals in seconds, below 3600 the value over 60 in
minutes, below 86400 the value over 3600 in hours, below 31557600
(365.25 days) the value over 86400 in days, and otherwise the value over
31557600 in years, always to 2 decimals. -/
theorem human_readable_seconds_spec (s : ℚ) :
    (s < 1 →
      _human_readable_seconds s = { value := s, decimals := 3, unit := "seconds" }) ∧
    (1 ≤ s → s < 60 →
      _human_readable_seconds s = { value := s, decimals := 2, unit := "seconds" }) ∧
    (60 ≤ s → s < 3600 →
      _human_readable_seconds s = { value := s / 60, decimals := 2, unit := "minutes" }) ∧
    (3600 ≤ s → s < 86400 →
      _human_readable_seconds s = { value := s / 3600, decimals := 2, unit := "hours" }) ∧
    (86400 ≤ s → s < 31557600 →
      _human_readable_seconds s = { value := s / 86400, decimals := 2, unit := "days" }) ∧
    (31557600 ≤ s →
      _human_readable_seconds s =
        { value := s / 31557600, decimals := 2, unit := "years" }) := by
  refine ⟨fun h1 => ?_, fun h1 h2 => ?_, fun h1 h2 => ?_, fun h1 h2 => ?_,
    fun h1 h2 => ?_, fun h1 => ?_⟩
  · rw [human_readable_seconds_eq, if_pos h1]
  · rw [human_readable_seconds_eq, if_neg (by linarith), if_pos h2]
  · rw [human_readable_seconds_eq, if_neg (by linarith), if_neg (by linarith),
      if_pos h2]
  · rw [human_readable_seconds_eq, if_neg (by linarith), if_neg (by linarith),
      if_neg (by linarith), if_pos h2]
  · rw [human_readable_seconds_eq, if_neg (by linarith), if_neg (by linarith),
      if_neg (by linarith), if_neg (by linarith), if_pos h2]
  · rw [human_readable_seconds_eq, if_neg (by linarith), if_neg (by linarith),
      if_neg (by linarith), if_neg (by linarith), if_neg (by linarith)]

/-- C6 witness: 1000 seconds falls in the minutes band and is displayed
as 1000/60 minutes to 2 decimals. -/
theorem human_readable_seconds_spec_witness :
    _human_readable_seconds 1000 =
      { value := (1000 : ℚ) / 60, decimals := 2, unit := "minutes" } :=
  (human_readable_seconds_spec 1000).2.2.1 (by norm_num) (by norm_num)

/-- The branch on an empty result list in `save_csv_report` is equivalent
to always prepending the header to the numbered data rows. -/
theorem save_csv_report_eq (f : ℝ → String) (rs : List AnalysisResult) :
    save_csv_report f rs = csvHeader :: rs.mapIdx (fun i r => csvRow f (i + 1) r) := by
  cases rs <;> rfl

/-- C9: the CSV report for an empty result list is exactly the header
row; for N results it is the header followed by exactly N data rows in
submission order, row i carrying id "p(i+1)" and a notes column equal to
the notes joined with " | ". -/
theorem save_csv_report_spec (f : ℝ → String) (rs : List AnalysisResult) :
    save_csv_report f [] = [csvHeader] ∧
    (save_csv_report f rs).length = rs.length + 1 ∧
    (save_csv_report f rs).headI = csvHeader ∧
    ∀ i, ∀ hi : i < rs.length,
      (save_csv_report f rs)[i + 1]? = some (csvRow f (i + 1) rs[i]) ∧
      (csvRow f (i + 1) rs[i]).headI = "p" ++ toString (i + 1) ∧
      (csvRow f (i + 1) rs[i]).getLastI = String.intercalate " | " rs[i].notes := by
  refine ⟨rfl, ?_, ?_, ?_⟩
  · rw [save_csv_report_eq]
    simp [List.length_mapIdx]
  · rw [save_csv_report_eq]
    rfl
  · intro i hi
    refine ⟨?_, rfl, ?_⟩
    · rw [save_csv_report_eq]
      have hlen : i < (rs.mapIdx fun i r => csvRow f (i + 1) r).length := by
        rw [List.length_mapIdx]; exact hi
      rw [List.getElem?_cons_succ, List.getElem?_eq_getElem hlen]
      congr 1
      have := List.get_mapIdx rs (fun i r => csvRow f (i + 1) r) i hi
      simp only [List.get_eq_getElem] at this
      exact this
    · cases hnotes : rs[i].notes with
      | nil => simp [csvRow, List.getLastI, hnotes, String.intercalate]
      | cons a l => simp [csvRow, List.getLastI, hnotes]

/-- C9 witness: the theorem applied to a singleton result list built from
analyzing a concrete outcome, placing data row "p1" at index 1. -/
theorem save_csv_report_spec_witness :
    (save_csv_report (fun _ => "")
        [analyze_password (ZxcvbnOutcome.ok (some 1) (some 2) (some 3)) ['a']])[0 + 1]? =
      some (csvRow (fun _ => "") (0 + 1)
        ([analyze_password (ZxcvbnOutcome.ok (some 1) (some 2) (some 3)) ['a']][0])) :=
  ((save_csv_report_spec (fun _ => "")
      [analyze_password (ZxcvbnOutcome.ok (some 1) (some 2) (some 3)) ['a']]).2.2.2
    0 (by norm_num)).1

/-- C8: `has_symbol` is the disjunction over the password's characters of
"printable and not alphanumeric", and the heuristic charset size estimate
is the sum of the fixed cardinalities 26/26/10/32 for the character
classes present. -/
theorem analyze_symbol_charset_spec (z : ZxcvbnOutcome) (pw : List Char) :
    (analyze_password z pw).has_symbol
        = pw.any (fun c => pythonPrintable c && !(c.isAlpha || c.isDigit)) ∧
    (analyze_password z pw).charset_size_est
        = (if pw.any (fun c => c.isLower) then 26 else 0)
          + (if pw.any (fun c => c.isUpper) then 26 else 0)
          + (if pw.any (fun c => c.isDigit) then 10 else 0)
          + (if pw.any (fun c => pythonPrintable c && !(c.isAlpha || c.isDigit))
              then 32 else 0) := by
  cases z <;> exact ⟨rfl, rfl⟩

/-- C5: the fallback score is 0 for the empty password and otherwise a
pure threshold ladder on entropy bits at 28/36/60/80; consequently every
fallback analysis carries a score in [0, 4]. -/
theorem heuristic_score_spec (e : ℝ) (l : ℕ) (pw : List Char) :
    (l = 0 → _heuristic_score e l = 0) ∧
    (l ≠ 0 → e < 28 → _heuristic_score e l = 0) ∧
    (l ≠ 0 → 28 ≤ e → e < 36 → _heuristic_score e l = 1) ∧
    (l ≠ 0 → 36 ≤ e → e < 60 → _heuristic_score e l = 2) ∧
    (l ≠ 0 → 60 ≤ e → e < 80 → _heuristic_score e l = 3) ∧
    (l ≠ 0 → 80 ≤ e → _heuristic_score e l = 4) ∧
    (∃ s, (analyze_password ZxcvbnOutcome.unavailable pw).score = some s ∧
      0 ≤ s ∧ s ≤ 4) := by
  refine ⟨?_, ?_, ?_, ?_, ?_, ?_, ?_⟩
  · intro h0
    unfold _heuristic_score
    rw [if_pos h0]
  · intro h0 h1
    unfold _heuristic_score
    rw [if_neg h0, if_pos h1]
  · intro h0 h1 h2
    unfold _heuristic_score
    rw [if_neg h0, if_neg (by linarith), if_pos h2]
  · intro h0 h1 h2
    unfold _heuristic_score
    rw [if_neg h0, if_neg (by linarith), if_neg (by linarith), if_pos h2]
  · intro h0 h1 h2
    unfold _heuristic_score
    rw [if_neg h0, if_neg (by linarith), if_neg (by linarith),
      if_neg (by linarith), if_pos h2]
  · intro h0 h1
    unfold _heuristic_score
    rw [if_neg h0, if_neg (by linarith), if_neg (by linarith),
      if_neg (by linarith), if_neg (by linarith)]
  · refine ⟨_heuristic_score (_shannon_entropy_bits pw) pw.length, rfl, ?_, ?_⟩ <;>
      · unfold _heuristic_score
        split_ifs <;> norm_num

/-- C5 witness: entropy 30 bits on a nonempty password scores 1 (the
28-to-36 band). -/
theorem heuristic_score_spec_witness : _heuristic_score 30 5 = 1 :=
  (heuristic_score_spec 30 5 []).2.2.1 (by norm_num) (by norm_num) (by norm_num)

/-- Base-2 logarithm of 1/4. -/
theorem logb_two_one_fourth : Real.logb 2 ((1 : ℝ) / 4) = -2 := by
  rw [show ((1 : ℝ) / 4) = ((2 : ℝ) ^ (2 : ℕ))⁻¹ by norm_num, Real.logb_inv,
    Real.logb_pow, Real.logb_self_eq_one (by norm_num)]
  norm_num

/-- C4: the fallback entropy is length times the sum over distinct
characters of minus p log2 p with p the character's frequency; the empty
string has entropy 0; "aaaa" has entropy 0 (within 1e-6) and "abcd" has
entropy 8 bits (within 0.1). -/
theorem shannon_entropy_spec :
    (∀ pw : List Char,
      _shannon_entropy_bits pw =
        (pw.length : ℝ) *
          (pw.dedup.map (fun c =>
            -(((pw.count c : ℝ) / (pw.length : ℝ)) *
              Real.logb 2 ((pw.count c : ℝ) / (pw.length : ℝ))))).sum) ∧
    _shannon_entropy_bits [] = 0 ∧
    |_shannon_entropy_bits ['a', 'a', 'a', 'a'] - 0| ≤ 1e-6 ∧
    |_shannon_entropy_bits ['a', 'b', 'c', 'd'] - 8| ≤ 0.1 := by
  have haaaa : _shannon_entropy_bits ['a', 'a', 'a', 'a'] = 0 := by
    unfold _shannon_entropy_bits
    rw [if_neg (by decide),
      show (['a', 'a', 'a', 'a'] : List Char).dedup = ['a'] from by decide]
    simp only [List.map_cons, List.map_nil, List.sum_cons, List.sum_nil,
      show (['a', 'a', 'a', 'a'] : List Char).count 'a' = 4 from by decide,
      show (['a', 'a', 'a', 'a'] : List Char).length = 4 from rfl]
    norm_num [Real.logb_one]
  have habcd : _shannon_entropy_bits ['a', 'b', 'c', 'd'] = 8 := by
    unfold _shannon_entropy_bits
    rw [if_neg (by decide),
      show (['a', 'b', 'c', 'd'] : List Char).dedup = ['a', 'b', 'c', 'd'] from by decide]
    simp only [List.map_cons, List.map_nil, List.sum_cons, List.sum_nil,
      show (['a', 'b', 'c', 'd'] : List Char).count 'a' = 1 from by decide,
      show (['a', 'b', 'c', 'd'] : List Char).count 'b' = 1 from by decide,
      show (['a', 'b', 'c', 'd'] : List Char).count 'c' = 1 from by decide,
      show (['a', 'b', 'c', 'd'] : List Char).count 'd' = 1 from by decide,
      show (['a', 'b', 'c', 'd'] : List Char).length = 4 from rfl]
    norm_num [logb_two_one_fourth]
  refine ⟨?_, by simp [_shannon_entropy_bits], ?_, ?_⟩
  · intro pw
    unfold _shannon_entropy_bits
    split_ifs with h
    · simp [h]
    · exact mul_comm _ _
  · rw [haaaa]; norm_num
  · rw [habcd]; norm_num

/-- C3: in fallback mode (and likewise on the zxcvbn-failure path) the
reported guess count is the integer part of max(1, 2^entropy), and every
fallback guess count is at least 1. -/
theorem analyze_guesses_spec (pw : List Char) :
    (analyze_password ZxcvbnOutcome.unavailable pw).guesses =
      some (pyInt (max 1 ((2 : ℝ) ^ _shannon_entropy_bits pw))) ∧
    (∀ msg, (analyze_password (ZxcvbnOutcome.failed msg) pw).guesses =
      some (pyInt (max 1 ((2 : ℝ) ^ _shannon_entropy_bits pw)))) ∧
    (∀ g, (analyze_password ZxcvbnOutcome.unavailable pw).guesses = some g →
      1 ≤ g) := by
  refine ⟨rfl, fun msg => rfl, ?_⟩
  intro g hg
  have h0 : (analyze_password ZxcvbnOutcome.unavailable pw).guesses =
      some (pyInt (max 1 ((2 : ℝ) ^ _shannon_entropy_bits pw))) := rfl
  rw [h0, Option.some_inj] at hg
  subst hg
  have hmax : (1 : ℝ) ≤ max 1 ((2 : ℝ) ^ _shannon_entropy_bits pw) := le_max_left _ _
  unfold pyInt
  rw [if_pos (by linarith)]
  exact Int.le_floor.mpr (by exact_mod_cast hmax)

/-- C3 witness: the empty password has entropy 0, hence exactly
max(1, 2^0) = 1 guess, and that guess count is at least 1. -/
theorem analyze_guesses_spec_witness :
    (analyze_password ZxcvbnOutcome.unavailable []).guesses = some 1 ∧ (1 : ℤ) ≤ 1 := by
  have h := analyze_guesses_spec []
  have h1 : (analyze_password ZxcvbnOutcome.unavailable []).guesses = some 1 := by
    rw [h.1, show _shannon_entropy_bits [] = 0 from by simp [_shannon_entropy_bits]]
    norm_num [pyInt, Real.rpow_zero]
  exact ⟨h1, h.2.2 1 h1⟩

/-- Union of a nonempty constant list with a distinct singleton. -/
theorem replicate_union_singleton {α : Type} [DecidableEq α] {a b : α} (hab : a ≠ b) :
    ∀ k : ℕ, k ≠ 0 → List.replicate k a ∪ [b] = [a, b] := by
  intro k
  induction k with
  | zero => intro h; exact absurd rfl h
  | succ n ih =>
    intro _
    rw [List.replicate_succ, List.cons_union]
    cases Nat.eq_zero_or_pos n with
    | inl h0 =>
      subst h0
      simp [List.insert_of_not_mem, hab]
    | inr hpos =>
      rw [ih (Nat.pos_iff_ne_zero.mp hpos)]
      simp [List.insert_of_mem]

/-- C1 (code bug): the never-raises claim is violated by the program. For
the 2060-character password of 1030 a's followed by 1030 b's, the fallback
Shannon entropy is exactly 2060 bits, so the fallback path's guess count
is the value of `2.0 ** 2060.0` — strictly above 2^1024, the largest
double — where CPython raises OverflowError that no handler recovers.
The model, evaluating the same expressions over the reals, exhibits the
overflowing quantity at that input. -/
theorem analyze_password_overflow_input :
    _shannon_entropy_bits (List.replicate 1030 'a' ++ List.replicate 1030 'b') = 2060 ∧
    (analyze_password ZxcvbnOutcome.unavailable
        (List.replicate 1030 'a' ++ List.replicate 1030 'b')).guesses =
      some (pyInt (max 1 ((2 : ℝ) ^ (2060 : ℝ)))) ∧
    (2 : ℝ) ^ (1024 : ℝ) < (2 : ℝ) ^ (2060 : ℝ) := by
  have hd : (List.replicate 1030 'a' ++ List.replicate 1030 'b').dedup = ['a', 'b'] := by
    rw [List.dedup_append, List.replicate_dedup (by norm_num),
      replicate_union_singleton (by decide) 1030 (by norm_num)]
  have hent : _shannon_entropy_bits (List.replicate 1030 'a' ++ List.replicate 1030 'b')
      = 2060 := by
    unfold _shannon_entropy_bits
    rw [if_neg (List.length_pos.mp (by
      simp only [List.length_append, List.length_replicate]; norm_num)), hd]
    simp only [List.map_cons, List.map_nil, List.sum_cons, List.sum_nil,
      List.count_append, List.count_replicate_self, List.count_replicate,
      List.length_append, List.length_replicate,
      show (('b' == 'a') = false) from by decide,
      show (('a' == 'b') = false) from by decide]
    push_cast
    norm_num
    rw [one_div, Real.logb_inv, Real.logb_self_eq_one (by norm_num)]
    norm_num
  refine ⟨hent, ?_, ?_⟩
  · rw [show (analyze_password ZxcvbnOutcome.unavailable
        (List.replicate 1030 'a' ++ List.replicate 1030 'b')).guesses =
      some (pyInt (max 1 ((2 : ℝ) ^
        _shannon_entropy_bits (List.replicate 1030 'a' ++ List.replicate 1030 'b'))))
      from rfl, hent]
  · rw [Real.rpow_lt_rpow_left_iff (by norm_num)]
    norm_num

end CrackTime
